import Mathlib

/-!
Verification of the text-to-speech chunking, SSML generation and benign-error
suppression of `helpers/call_utils.py`.

The Python functions are shallowly embedded: strings are Lean `String`
(a list of Unicode code points, as in Python), the regex split of
`re.split(r"(\. |\.$|[!?;])", text)` is unfolded into an explicit scanner,
and the SDK calls of `handle_play` / `handle_recognize_ivr` are modelled by
an error oracle describing which submission (if any) raises which exception.
-/

set_option maxRecDepth 20000
set_option linter.unusedVariables false

/-- ASCII whitespace stripped by Python's `str.strip()` (the Unicode-only
whitespace code points are not modelled; no claim involves them). -/
def isPySpace (c : Char) : Bool :=
  c = ' ' || c = '\t' || c = '\n' || c = '\r' || c = '\x0b' || c = '\x0c'

/-- `str.strip()` on the underlying character list: drop whitespace from the
front, then from the back. -/
def stripL (l : List Char) : List Char :=
  ((l.dropWhile isPySpace).reverse.dropWhile isPySpace).reverse

/-- Python `str.strip()`. -/
def pyStrip (s : String) : String := ⟨stripL s.data⟩

/-- Python `str.lower()` restricted to ASCII letters (sufficient for the
all-ASCII needle "call already terminated" used by the code). -/
def pyLower (s : String) : String := ⟨s.data.map Char.toLower⟩

/-- Boolean check that one character list is a prefix of another. -/
def isPre : List Char → List Char → Bool
  | [], _ => true
  | _ :: _, [] => false
  | p :: ps, c :: cs => p == c && isPre ps cs

/-- Boolean substring containment (`needle in hay` in Python). -/
def hasSub (needle : List Char) : List Char → Bool
  | [] => needle.isEmpty
  | c :: t => isPre needle (c :: t) || hasSub needle t

/-- Python `sub in s` on strings. -/
def pyContains (s sub : String) : Bool := hasSub sub.data s.data

/-- One step of scanning for the leftmost match of the pattern
`(\. |\.$|[!?;])` used by `tts_sentence_split` (source line 25), producing
the alternating segment/separator list returned by `re.split` with one
capture group.  `acc` is the text consumed since the previous match.
The alternatives are tried in the regex's order: `\. ` (dot and space),
`\.$` ("." at end of string or just before a final newline), `[!?;]`. -/
def splitAux (acc : List Char) : List Char → List (List Char)
  | [] => [acc]
  | '.' :: ' ' :: cs2 => acc :: ['.', ' '] :: splitAux [] cs2
  | '.' :: [] => acc :: ['.'] :: [[]]
  | '.' :: '\n' :: [] => acc :: ['.'] :: [['\n']]
  | c :: cs =>
    if c = '!' || c = '?' || c = ';' then
      acc :: [c] :: splitAux [] cs
    else
      splitAux (acc ++ [c]) cs

/-- The generator body of `tts_sentence_split` (source lines 40-49): walk the
alternating segment/separator list, skip separators (odd indices) and empty
segments, re-attach the following separator to every non-final segment, and
yield the final segment only when `include_last` is set. -/
def assemble (include_last : Bool) : List (List Char) → List (List Char)
  | [] => []
  | [lastSeg] =>
    if lastSeg = [] then [] else if include_last then [lastSeg] else []
  | s :: p :: rest =>
    (if s = [] then [] else [s ++ p]) ++ assemble include_last rest

/-- `tts_sentence_split` (source lines 34-49), with the lazy generator
materialised as a list. -/
def tts_sentence_split (text : String) (include_last : Bool) : List String :=
  (assemble include_last (splitAux [] text.data)).map fun l => ⟨l⟩

/-- The chunk-packing loop of `handle_play` (source lines 156-165): `chunk` is
the accumulator; when `len(chunk) + len(to_add) >= 400` the accumulator is
flushed stripped and the fragment starts a new accumulator; at the end a
non-empty accumulator is appended unstripped. -/
def packChunksAux : List String → String → List String
  | [], chunk => if chunk ≠ "" then [chunk] else []
  | f :: rest, chunk =>
    if 400 ≤ chunk.length + f.length then
      pyStrip chunk :: packChunksAux rest f
    else
      packChunksAux rest (chunk ++ f)

/-- The chunks built by `handle_play` for a given text (source lines 156-165). -/
def handle_play_chunks (text : String) : List String :=
  packChunksAux (tts_sentence_split text true) ""

/-- Companion of `packChunksAux` recording whether every flushed accumulator
is left unchanged by `str.strip()` (i.e. the packing loses no character). -/
def packNoLoss : List String → String → Bool
  | [], _ => true
  | f :: rest, chunk =>
    if 400 ≤ chunk.length + f.length then
      (pyStrip chunk == chunk) && packNoLoss rest f
    else
      packNoLoss rest (chunk ++ f)

/-- Exceptions raised by the Azure SDK calls, as far as the except-clauses of
the source distinguish them: `ResourceNotFoundError`, `HttpResponseError`
(carrying `e.message`), and any other exception type. -/
inductive ApiError where
  | resourceNotFound : ApiError
  | httpResponse : String → ApiError
  | otherErr : String → ApiError
deriving DecidableEq

/-- The except-clauses of `handle_play` (source lines 174-180):
`ResourceNotFoundError` is swallowed; `HttpResponseError` is swallowed iff its
lowercased message contains "call already terminated"; anything else
propagates. `none` means the function returns normally. -/
def catchPlay : ApiError → Option ApiError
  | ApiError.resourceNotFound => none
  | ApiError.httpResponse m =>
    if pyContains (pyLower m) ("call already terminated") then none
    else some (ApiError.httpResponse m)
  | ApiError.otherErr m => some (ApiError.otherErr m)

/-- The language data of a call.
Modelled from the spec: the `models.call` / language model modules are not in
the source fragment; only `short_code` and `voice` are read by this code. -/
structure LangModel where
  short_code : String
  voice : String

/-- A call record.
Modelled from the spec: `models.call.CallModel` is not in the source fragment;
only `lang` and `phone_number` are read by this code. -/
structure CallModel where
  lang : LangModel
  phone_number : String

/-- The configuration slice used here.
Modelled from the spec: `helpers.config` is not in the source fragment; the
markup builder reads `CONFIG.resources.public_url`. -/
structure Config where
  public_url : String

/-- An expressive style.
Modelled from the spec: `models.message.StyleEnum` is not in the source
fragment; only its string `value` is interpolated into the markup, and `NONE`
is one of the members. -/
structure MessageStyleEnum where
  value : String

/-- The `NONE` style member.
Modelled from the spec: enum `StyleEnum` has a `NONE` member. -/
def MessageStyleEnum.NONE : MessageStyleEnum := ⟨"none"⟩

/-- The literal part of the SSML f-string (source lines 195-204) before the
interpolated `call.lang.short_code`. -/
def ssmlHead : String :=
  "\n    <speak version=\"1.0\" xmlns=\"http://www.w3.org/2001/10/synthesis\" xmlns:mstts=\"https://www.w3.org/2001/mstts\" xml:lang=\""

/-- The literal part between `call.lang.short_code` and `call.lang.voice`. -/
def ssmlMid1 : String := "\">\n        <voice name=\""

/-- The literal part between `call.lang.voice` and
`CONFIG.resources.public_url`. -/
def ssmlMid2 : String :=
  "\" effect=\"eq_telecomhp8k\">\n            <lexicon uri=\""

/-- The literal part between `CONFIG.resources.public_url` and
`style.value` (it completes the lexicon reference with "/lexicon.xml"). -/
def ssmlMid3 : String :=
  "/lexicon.xml\" />\n            <mstts:express-as style=\""

/-- The literal part between `style.value` and the (possibly truncated)
`text`, fixing `styledegree="0.5"` and `rate="0.95"`. -/
def ssmlMid4 : String :=
  "\" styledegree=\"0.5\">\n                <prosody rate=\"0.95\">"

/-- The literal part of the f-string after the interpolated `text`. -/
def ssmlTail : String :=
  "</prosody>\n            </mstts:express-as>\n        </voice>\n    </speak>\n    "

/-- `ssmlHead` with the leading whitespace removed by `.strip()`. -/
def ssmlHeadStripped : String :=
  "<speak version=\"1.0\" xmlns=\"http://www.w3.org/2001/10/synthesis\" xmlns:mstts=\"https://www.w3.org/2001/mstts\" xml:lang=\""

/-- `ssmlTail` with the trailing whitespace removed by `.strip()`. -/
def ssmlTailStripped : String :=
  "</prosody>\n            </mstts:express-as>\n        </voice>\n    </speak>"

/-- The SSML f-string of `_audio_from_text` (source lines 195-204) as the
concatenation of its literal parts and the five interpolated values. -/
def ssmlTemplate (short_code voice url stylev text : String) : String :=
  ssmlHead ++ short_code ++ ssmlMid1 ++ voice ++ ssmlMid2 ++ url
    ++ ssmlMid3 ++ stylev ++ ssmlMid4 ++ text ++ ssmlTail

/-- `_audio_from_text` (source lines 183-205): truncate the text to 400
characters when longer (recording the logged warning as the Bool),
interpolate language, voice, lexicon URL, style and text into the SSML
f-string, and return the stripped document. -/
def _audio_from_text (text : String) (style : MessageStyleEnum)
    (call : CallModel) (cfg : Config) : String × Bool :=
  let tooLong := decide (400 < text.length)
  let text := if 400 < text.length then (⟨text.data.take 400⟩ : String) else text
  (pyStrip (ssmlTemplate call.lang.short_code call.lang.voice cfg.public_url
      style.value text),
   tooLong)

/-- The playback loop of `handle_play` (source lines 167-180): submit the SSML
document of each chunk in order; `oracle i` tells whether the `i`-th
submission raises and which exception.  Returns the submitted SSML documents
(the failing submission included, since `play_media` was called) and the
exception propagated to the caller, if any.  The whole loop sits inside the
`try`, so the first exception ends the loop. -/
def playLoop (oracle : Nat → Option ApiError) (style : MessageStyleEnum)
    (call : CallModel) (cfg : Config) : List String → Nat → List String × Option ApiError
  | [], _ => ([], none)
  | c :: rest, i =>
    let req := (_audio_from_text c style call cfg).1
    match oracle i with
    | some e => ([req], catchPlay e)
    | none =>
      let r := playLoop oracle style call cfg rest (i + 1)
      (req :: r.1, r.2)

/-- `handle_play` (source lines 127-180), restricted to its chunking and
playback phase (the transcript `store` side effect touches only
`call.messages`, which no claim mentions).  Returns the submitted SSML
documents and the propagated exception, if any. -/
def handle_play (oracle : Nat → Option ApiError) (text : String)
    (style : MessageStyleEnum) (call : CallModel) (cfg : Config) :
    List String × Option ApiError :=
  playLoop oracle style call cfg (handle_play_chunks text) 0

/-- `_handle_recognize_media` (source lines 53-76), reduced to its
error-handling outcome: the recognition call either succeeds (`none`) or
raises `e`, and the except-clauses (lines 70-76) mirror those of
`handle_play`. -/
def _handle_recognize_media (err : Option ApiError) (call : CallModel)
    (sound_url : String) : Option ApiError :=
  match err with
  | none => none
  | some ApiError.resourceNotFound => none
  | some (ApiError.httpResponse m) =>
    if pyContains (pyLower m) ("call already terminated") then none
    else some (ApiError.httpResponse m)
  | some e => some e

/-- `handle_recognize_ivr` (source lines 208-227): build the prompt SSML from
the text with style `NONE`, submit the recognition request, and catch only
`ResourceNotFoundError` (lines 226-227).  Returns the submitted prompt and
the propagated exception, if any. -/
def handle_recognize_ivr (err : Option ApiError) (text : String)
    (call : CallModel) (cfg : Config) : String × Option ApiError :=
  let prompt := (_audio_from_text text MessageStyleEnum.NONE call cfg).1
  match err with
  | none => (prompt, none)
  | some ApiError.resourceNotFound => (prompt, none)
  | some e => (prompt, some e)

/-- Concatenation, in order, of a list of strings (used to state the
round-trip claims about the chunking). -/
def concatAll : List String → String
  | [] => ""
  | s :: l => s ++ concatAll l

/-- A text whose splitter output is one oversized fragment followed by a
short one: 401 'A's, '!', 10 'B's, '!'. -/
def exBig : String := ⟨List.replicate 401 'A' ++ '!' :: (List.replicate 10 'B' ++ ['!'])⟩

/-- A text of 500 'A's: a single splitter fragment of length 500 with no
internal sentence terminators. -/
def exA500 : String := ⟨List.replicate 500 'A'⟩

/-- A text of 400 'A's: a single splitter fragment of length exactly 400. -/
def exA400 : String := ⟨List.replicate 400 'A'⟩

/-- A text of 401 'a's: one character beyond the 400-character TTS limit. -/
def exA401 : String := ⟨List.replicate 401 'a'⟩

theorem concatAll_nil : concatAll [] = "" := rfl

theorem concatAll_cons (s : String) (l : List String) :
    concatAll (s :: l) = s ++ concatAll l := rfl

theorem pyStrip_empty : pyStrip "" = "" := rfl

theorem dropWhile_length_le (p : Char → Bool) :
    ∀ l : List Char, (l.dropWhile p).length ≤ l.length := by
  intro l
  induction l with
  | nil => simp
  | cons c cs ih =>
    rw [List.dropWhile_cons]
    by_cases h : p c = true
    · rw [if_pos h]; exact Nat.le_trans ih (Nat.le_succ _)
    · rw [if_neg h]

theorem stripL_length_le (l : List Char) : (stripL l).length ≤ l.length := by
  unfold stripL
  calc ((l.dropWhile isPySpace).reverse.dropWhile isPySpace).reverse.length
      = ((l.dropWhile isPySpace).reverse.dropWhile isPySpace).length := List.length_reverse _
    _ ≤ (l.dropWhile isPySpace).reverse.length := dropWhile_length_le _ _
    _ = (l.dropWhile isPySpace).length := List.length_reverse _
    _ ≤ l.length := dropWhile_length_le _ _

theorem pyStrip_length_le (s : String) : (pyStrip s).length ≤ s.length :=
  stripL_length_le s.data

/-- The packing loop loses nothing when every flushed accumulator is already
stripped: its output concatenates to the accumulator followed by all
fragments. -/
theorem packChunksAux_join :
    ∀ (frags : List String) (chunk : String),
    packNoLoss frags chunk = true →
    concatAll (packChunksAux frags chunk) = chunk ++ concatAll frags := by
  intro frags
  induction frags with
  | nil =>
    intro chunk _
    by_cases h : chunk = ""
    · subst h; simp [packChunksAux, concatAll]
    · simp [packChunksAux, h, concatAll, String.append_empty]
  | cons f rest ih =>
    intro chunk hnl
    by_cases h : 400 ≤ chunk.length + f.length
    · rw [packNoLoss, if_pos h, Bool.and_eq_true, beq_iff_eq] at hnl
      rw [packChunksAux, if_pos h, concatAll_cons, hnl.1, ih f hnl.2,
        concatAll_cons]
    · rw [packNoLoss, if_neg h] at hnl
      rw [packChunksAux, if_neg h, ih (chunk ++ f) hnl, concatAll_cons,
        String.append_assoc]

/-- Invariant of the packing loop: any chunk other than the final one either
has stripped length below 400 or is the stripped form of a single fragment
of length at least 400 (the accumulator can only reach 400 by being reset to
one oversized fragment, which is then flushed unsplit). -/
theorem packChunksAux_dropLast_spec :
    ∀ (frags F : List String) (chunk : String),
    (∀ f ∈ frags, f ∈ F) → (chunk.length < 400 ∨ chunk ∈ F) →
    ∀ e ∈ (packChunksAux frags chunk).dropLast,
      (pyStrip e).length < 400 ∨ ∃ f ∈ F, e = pyStrip f ∧ 400 ≤ f.length := by
  intro frags
  induction frags with
  | nil =>
    intro F chunk _ _ e he
    by_cases h : chunk = "" <;> simp [packChunksAux, h] at he
  | cons f rest ih =>
    intro F chunk hF hinv e he
    rw [packChunksAux] at he
    by_cases h : 400 ≤ chunk.length + f.length
    · rw [if_pos h] at he
      by_cases hr : packChunksAux rest f = []
      · rw [hr] at he; simp at he
      · rw [List.dropLast_cons_of_ne_nil hr, List.mem_cons] at he
        rcases he with he | he
        · subst he
          by_cases hlen : chunk.length < 400
          · left
            exact Nat.lt_of_le_of_lt
              (Nat.le_trans (pyStrip_length_le _) (pyStrip_length_le _)) hlen
          · rcases hinv with hlt | hmem
            · exact absurd hlt hlen
            · exact Or.inr ⟨chunk, hmem, rfl, Nat.le_of_not_lt hlen⟩
        · exact ih F f (fun g hg => hF g (List.mem_cons_of_mem _ hg))
            (Or.inr (hF f (List.mem_cons_self _ _))) e he
    · rw [if_neg h] at he
      refine ih F (chunk ++ f) (fun g hg => hF g (List.mem_cons_of_mem _ hg)) ?_ e he
      left
      rw [String.length_append]
      omega

/-- If the first fragment alone already meets the 400 threshold, the very
first thing the packing loop does is flush the empty accumulator, emitting
the empty string as first chunk. -/
theorem packChunksAux_big_head (f : String) (rest : List String)
    (h : 400 ≤ f.length) :
    packChunksAux (f :: rest) "" = "" :: packChunksAux rest f := by
  rw [packChunksAux, if_pos (by simpa using h), pyStrip_empty]

/-- Behaviour of the playback loop when the first `i` submissions succeed and
the `i`-th raises `e`: every chunk up to and including the failing one is
submitted as its SSML document, nothing afterwards, and the outcome is what
the except-clauses make of `e`. -/
theorem playLoop_spec (style : MessageStyleEnum) (call : CallModel)
    (cfg : Config) (oracle : Nat → Option ApiError) :
    ∀ (chunks : List String) (i0 i : Nat) (e : ApiError),
    (∀ j, j < i → oracle (i0 + j) = none) → oracle (i0 + i) = some e →
    i < chunks.length →
    playLoop oracle style call cfg chunks i0
      = ((chunks.take (i + 1)).map (fun c => (_audio_from_text c style call cfg).1),
         catchPlay e) := by
  intro chunks
  induction chunks with
  | nil => intro i0 i e _ _ hlen; simp at hlen
  | cons c rest ih =>
    intro i0 i e hpre hi hlen
    cases i with
    | zero =>
      rw [Nat.add_zero] at hi
      simp [playLoop, hi]
    | succ i' =>
      have h0 : oracle i0 = none := by
        have := hpre 0 (Nat.succ_pos _)
        rwa [Nat.add_zero] at this
      rw [playLoop]
      simp only [h0]
      rw [ih (i0 + 1) i' e
        (fun j hj => by
          have := hpre (j + 1) (by omega)
          rwa [show i0 + (j + 1) = i0 + 1 + j by omega] at this)
        (by rwa [show i0 + 1 + i' = i0 + (i' + 1) by omega])
        (by simpa using Nat.lt_of_succ_lt_succ (by simpa using hlen))]
      simp [List.take_succ_cons]

/-- On a text made only of '!', '?' and ';' every segment produced by the
regex split is empty, so the generator yields nothing. -/
theorem assemble_splitAux_terms :
    ∀ l : List Char, (∀ c ∈ l, c = '!' ∨ c = '?' ∨ c = ';') →
    assemble true (splitAux [] l) = [] := by
  intro l
  induction l with
  | nil => intro _; rfl
  | cons c cs ih =>
    intro h
    have hc := h c (List.mem_cons_self _ _)
    have hrest := fun x hx => h x (List.mem_cons_of_mem _ hx)
    rcases hc with hc | hc | hc <;> subst hc <;>
      simp [splitAux, assemble, ih hrest]

/-- Same with a single terminating '.' appended: the final '.' matches the
end-of-string alternative and still leaves only empty segments. -/
theorem assemble_splitAux_terms_dot :
    ∀ l : List Char, (∀ c ∈ l, c = '!' ∨ c = '?' ∨ c = ';') →
    assemble true (splitAux [] (l ++ ['.'])) = [] := by
  intro l
  induction l with
  | nil => intro _; rfl
  | cons c cs ih =>
    intro h
    have hc := h c (List.mem_cons_self _ _)
    have hrest := fun x hx => h x (List.mem_cons_of_mem _ hx)
    rcases hc with hc | hc | hc <;> subst hc <;>
      simp [splitAux, assemble, ih hrest]

/-- Claim C1, counterexample: for the input "!" the splitter yields no
fragment at all (the lone segment is empty and its punctuation is dropped),
so the chunks concatenate to "" and not to the input. -/
theorem claim_C1_cex : concatAll (handle_play_chunks ("!")) ≠ ("!") := by decide

/-- Claim C1 (amended): concatenating in order all chunks produced by
`handle_play`'s packing step reproduces the input text exactly, provided the
splitter itself is lossless on that text (its fragments concatenate back to
the text) and no flushed accumulator is altered by `str.strip()`.  The
original claim, quantified over every text, is refuted by `claim_C1_cex`. -/
theorem claim_C1 (text : String)
    (hsplit : concatAll (tts_sentence_split text true) = text)
    (hnoloss : packNoLoss (tts_sentence_split text true) "" = true) :
    concatAll (handle_play_chunks text) = text := by
  unfold handle_play_chunks
  rw [packChunksAux_join _ _ hnoloss, String.empty_append, hsplit]

/-- Claim C1, witness: the amended statement instantiated at "Hello! World". -/
theorem claim_C1_wit :
    concatAll (tts_sentence_split ("Hello! World") true) = ("Hello! World") ∧
    packNoLoss (tts_sentence_split ("Hello! World") true) "" = true ∧
    concatAll (handle_play_chunks ("Hello! World")) = ("Hello! World") :=
  ⟨by decide, by decide, claim_C1 ("Hello! World") (by decide) (by decide)⟩

/-- Claim C2, counterexample: on `exBig` (an oversized 402-character fragment
followed by a short one) the packing step emits three chunks and the middle
one — not the final one — has stripped length 402 ≥ 400. -/
theorem claim_C2_cex :
    (handle_play_chunks exBig).length = 3 ∧
    400 ≤ (pyStrip ((handle_play_chunks exBig).getD 1 "")).length := by decide

/-- Claim C2 (amended): every chunk emitted before the final one either has
stripped length strictly below 400 or is the stripped form of a single
splitter fragment of length at least 400 (an oversized fragment is flushed
unsplit as its own chunk).  The unconditional bound of the original claim is
refuted by `claim_C2_cex`. -/
theorem claim_C2 (text e : String)
    (he : e ∈ (handle_play_chunks text).dropLast) :
    (pyStrip e).length < 400 ∨
      ∃ f ∈ tts_sentence_split text true, e = pyStrip f ∧ 400 ≤ f.length :=
  packChunksAux_dropLast_spec (tts_sentence_split text true) _ ""
    (fun _ h => h) (Or.inl (by decide)) e he

/-- Claim C2, witness: the amended statement at `exBig` and its middle chunk. -/
theorem claim_C2_wit :
    (⟨List.replicate 401 'A' ++ ['!']⟩ : String)
        ∈ (handle_play_chunks exBig).dropLast ∧
    ((pyStrip (⟨List.replicate 401 'A' ++ ['!']⟩ : String)).length < 400 ∨
      ∃ f ∈ tts_sentence_split exBig true,
        (⟨List.replicate 401 'A' ++ ['!']⟩ : String) = pyStrip f ∧ 400 ≤ f.length) :=
  ⟨by decide, claim_C2 exBig _ (by decide)⟩

/-- Claim C3, counterexample: on the 500-'A' input (a single fragment of
length 500) the packing step does not produce exactly one chunk — it
produces two, because the empty accumulator is flushed first. -/
theorem claim_C3_cex : (handle_play_chunks exA500).length ≠ 1 := by decide

/-- Claim C3 (amended): for an input the splitter yields as a single fragment
of length 500, the packing step produces exactly two chunks: an empty first
chunk (the flushed empty accumulator) followed by the whole 500-character
fragment, never split mid-fragment.  The "exactly one chunk" form of the
original claim is refuted by `claim_C3_cex`. -/
theorem claim_C3 (text f : String)
    (hf : tts_sentence_split text true = [f]) (hlen : f.length = 500) :
    handle_play_chunks text = ["", f] := by
  have hne : f ≠ "" := by
    intro h
    rw [h] at hlen
    exact absurd hlen (by decide)
  unfold handle_play_chunks
  rw [hf, packChunksAux, if_pos (by rw [hlen]; decide), pyStrip_empty,
    packChunksAux, if_pos hne]

/-- Claim C3, witness: the amended statement at the 500-'A' input. -/
theorem claim_C3_wit :
    tts_sentence_split exA500 true = [exA500] ∧ exA500.length = 500 ∧
    handle_play_chunks exA500 = ["", exA500] :=
  ⟨by decide, by decide, claim_C3 exA500 exA500 (by decide) (by decide)⟩

/-- Claim C4 (confirmed): if the first `i` chunk submissions succeed and the
`i`-th raises `e`, `handle_play` submits exactly the chunks up to and
including the failing one (as SSML documents) and nothing after it; it
returns normally when `e` is `ResourceNotFoundError` or an
`HttpResponseError` whose lowercased message contains
"call already terminated", and propagates any other error unchanged. -/
theorem claim_C4 (text : String) (style : MessageStyleEnum) (call : CallModel)
    (cfg : Config) (oracle : Nat → Option ApiError) (i : Nat) (e : ApiError)
    (hpre : ∀ j, j < i → oracle j = none) (hi : oracle i = some e)
    (hlen : i < (handle_play_chunks text).length) :
    (handle_play oracle text style call cfg).1
      = ((handle_play_chunks text).take (i + 1)).map
          (fun c => (_audio_from_text c style call cfg).1) ∧
    (handle_play oracle text style call cfg).2
      = match e with
        | ApiError.resourceNotFound => none
        | ApiError.httpResponse m =>
          if pyContains (pyLower m) ("call already terminated") then none
          else some (ApiError.httpResponse m)
        | ApiError.otherErr m => some (ApiError.otherErr m) := by
  have h := playLoop_spec style call cfg oracle (handle_play_chunks text) 0 i e
    (fun j hj => by simpa using hpre j hj) (by simpa using hi) hlen
  unfold handle_play
  rw [h]
  refine ⟨rfl, ?_⟩
  cases e with
  | resourceNotFound => rfl
  | httpResponse m => rfl
  | otherErr m => rfl

/-- Claim C4, witness: a resource-not-found failure on the very first chunk of
"Hi" is swallowed after exactly one submission. -/
theorem claim_C4_wit :
    (handle_play (fun _ => some ApiError.resourceNotFound) ("Hi")
        MessageStyleEnum.NONE ⟨⟨"en-US", "v"⟩, "+1"⟩ ⟨"u"⟩).1
      = ((handle_play_chunks ("Hi")).take 1).map
          (fun c => (_audio_from_text c MessageStyleEnum.NONE
            ⟨⟨"en-US", "v"⟩, "+1"⟩ ⟨"u"⟩).1) ∧
    (handle_play (fun _ => some ApiError.resourceNotFound) ("Hi")
        MessageStyleEnum.NONE ⟨⟨"en-US", "v"⟩, "+1"⟩ ⟨"u"⟩).2 = none :=
  have h := claim_C4 ("Hi") MessageStyleEnum.NONE ⟨⟨"en-US", "v"⟩, "+1"⟩ ⟨"u"⟩
    (fun _ => some ApiError.resourceNotFound) 0 ApiError.resourceNotFound
    (fun j hj => absurd hj (Nat.not_lt_zero j)) rfl (by decide)
  ⟨h.1, h.2⟩

/-- Claim C7 (confirmed): the two documented splitter examples:
"Hello. World!" with the include-last flag yields ["Hello. ", "World!"], and
"Hello. World" without it yields ["Hello. "]. -/
theorem claim_C7 :
    tts_sentence_split ("Hello. World!") true = ["Hello. ", "World!"] ∧
    tts_sentence_split ("Hello. World") false = ["Hello. "] := by decide

/-- Claim C8 (confirmed): `handle_recognize_ivr` suppresses only the
resource-not-found condition — it returns normally on
`ResourceNotFoundError` but propagates an `HttpResponseError` even when its
message contains "call already terminated", unlike `handle_play` and
`_handle_recognize_media`, which both swallow that error. -/
theorem claim_C8 (text : String) (call : CallModel) (cfg : Config)
    (sound_url m : String) :
    (handle_recognize_ivr (some ApiError.resourceNotFound) text call cfg).2
        = none ∧
    (handle_recognize_ivr (some (ApiError.httpResponse m)) text call cfg).2
        = some (ApiError.httpResponse m) ∧
    (pyContains (pyLower m) ("call already terminated") = true →
      catchPlay (ApiError.httpResponse m) = none ∧
      _handle_recognize_media (some (ApiError.httpResponse m)) call sound_url
          = none) := by
  refine ⟨rfl, rfl, fun h => ⟨?_, ?_⟩⟩
  · simp [catchPlay, h]
  · simp [_handle_recognize_media, h]

/-- Claim C8, witness: instantiated at a "Call ALREADY terminated!" message. -/
theorem claim_C8_wit :
    pyContains (pyLower ("Call ALREADY terminated!"))
        ("call already terminated") = true ∧
    ((handle_recognize_ivr (some ApiError.resourceNotFound) ("hi")
        ⟨⟨"en-US", "v"⟩, "+1"⟩ ⟨"u"⟩).2 = none ∧
     (handle_recognize_ivr (some (ApiError.httpResponse ("Call ALREADY terminated!")))
        ("hi") ⟨⟨"en-US", "v"⟩, "+1"⟩ ⟨"u"⟩).2
        = some (ApiError.httpResponse ("Call ALREADY terminated!")) ∧
     (pyContains (pyLower ("Call ALREADY terminated!"))
          ("call already terminated") = true →
       catchPlay (ApiError.httpResponse ("Call ALREADY terminated!")) = none ∧
       _handle_recognize_media
          (some (ApiError.httpResponse ("Call ALREADY terminated!")))
          ⟨⟨"en-US", "v"⟩, "+1"⟩ ("s") = none)) :=
  ⟨by decide, claim_C8 ("hi") ⟨⟨"en-US", "v"⟩, "+1"⟩ ⟨"u"⟩ ("s")
    ("Call ALREADY terminated!")⟩

/-- Claim C9 (confirmed): whenever the first splitter fragment already has
length at least 400, the packing loop flushes the still-empty accumulator
first, so the first chunk is the empty string, and under an error-free
playback that empty chunk is the first submission, as the SSML synthesis
request built from "". -/
theorem claim_C9 (text : String) (style : MessageStyleEnum) (call : CallModel)
    (cfg : Config) (f : String) (rest : List String)
    (hf : tts_sentence_split text true = f :: rest) (hlen : 400 ≤ f.length) :
    (∃ more, handle_play_chunks text = "" :: more) ∧
    (handle_play (fun _ => none) text style call cfg).1.head?
      = some ((_audio_from_text "" style call cfg).1) := by
  have hchunks : handle_play_chunks text = "" :: packChunksAux rest f := by
    unfold handle_play_chunks
    rw [hf, packChunksAux_big_head f rest hlen]
  refine ⟨⟨_, hchunks⟩, ?_⟩
  unfold handle_play
  rw [hchunks]
  simp [playLoop]

/-- Claim C9, witness: the 400-'A' input, whose unique fragment has length
exactly 400. -/
theorem claim_C9_wit :
    tts_sentence_split exA400 true = [exA400] ∧ 400 ≤ exA400.length ∧
    ((∃ more, handle_play_chunks exA400 = "" :: more) ∧
     (handle_play (fun _ => none) exA400 MessageStyleEnum.NONE
        ⟨⟨"en-US", "v"⟩, "+1"⟩ ⟨"u"⟩).1.head?
      = some ((_audio_from_text "" MessageStyleEnum.NONE
          ⟨⟨"en-US", "v"⟩, "+1"⟩ ⟨"u"⟩).1)) :=
  ⟨by decide, by decide,
    claim_C9 exA400 MessageStyleEnum.NONE ⟨⟨"en-US", "v"⟩, "+1"⟩ ⟨"u"⟩ exA400 []
      (by decide) (by decide)⟩

/-- Claim C10 (confirmed): on any input made only of '!', '?' and ';' —
optionally closed by a single terminating '.' — every regex segment is
empty, so `tts_sentence_split` yields no fragment even with the include-last
flag, `handle_play` builds zero chunks, and an error-free run submits no
playback request at all. -/
theorem claim_C10 (l : List Char)
    (h : ∀ c ∈ l, c = '!' ∨ c = '?' ∨ c = ';')
    (style : MessageStyleEnum) (call : CallModel) (cfg : Config) :
    (tts_sentence_split (⟨l⟩ : String) true = [] ∧
     handle_play_chunks (⟨l⟩ : String) = [] ∧
     handle_play (fun _ => none) (⟨l⟩ : String) style call cfg = ([], none)) ∧
    (tts_sentence_split (⟨l ++ ['.']⟩ : String) true = [] ∧
     handle_play_chunks (⟨l ++ ['.']⟩ : String) = [] ∧
     handle_play (fun _ => none) (⟨l ++ ['.']⟩ : String) style call cfg
        = ([], none)) := by
  have h1 : tts_sentence_split (⟨l⟩ : String) true = [] := by
    unfold tts_sentence_split
    rw [show (⟨l⟩ : String).data = l from rfl, assemble_splitAux_terms l h]
    rfl
  have h2 : tts_sentence_split (⟨l ++ ['.']⟩ : String) true = [] := by
    unfold tts_sentence_split
    rw [show (⟨l ++ ['.']⟩ : String).data = l ++ ['.'] from rfl,
      assemble_splitAux_terms_dot l h]
    rfl
  have c1 : handle_play_chunks (⟨l⟩ : String) = [] := by
    unfold handle_play_chunks
    rw [h1]
    rfl
  have c2 : handle_play_chunks (⟨l ++ ['.']⟩ : String) = [] := by
    unfold handle_play_chunks
    rw [h2]
    rfl
  refine ⟨⟨h1, c1, ?_⟩, h2, c2, ?_⟩
  · unfold handle_play
    rw [c1]
    rfl
  · unfold handle_play
    rw [c2]
    rfl

/-- Claim C10, witness: the mixture "!;?" with and without a final '.'. -/
theorem claim_C10_wit :
    (∀ c ∈ ['!', ';', '?'], c = '!' ∨ c = '?' ∨ c = ';') ∧
    ((tts_sentence_split (⟨['!', ';', '?']⟩ : String) true = [] ∧
      handle_play_chunks (⟨['!', ';', '?']⟩ : String) = [] ∧
      handle_play (fun _ => none) (⟨['!', ';', '?']⟩ : String)
        MessageStyleEnum.NONE ⟨⟨"en-US", "v"⟩, "+1"⟩ ⟨"u"⟩ = ([], none)) ∧
     (tts_sentence_split (⟨['!', ';', '?'] ++ ['.']⟩ : String) true = [] ∧
      handle_play_chunks (⟨['!', ';', '?'] ++ ['.']⟩ : String) = [] ∧
      handle_play (fun _ => none) (⟨['!', ';', '?'] ++ ['.']⟩ : String)
        MessageStyleEnum.NONE ⟨⟨"en-US", "v"⟩, "+1"⟩ ⟨"u"⟩ = ([], none))) :=
  ⟨by decide, claim_C10 ['!', ';', '?'] (by decide) MessageStyleEnum.NONE
    ⟨⟨"en-US", "v"⟩, "+1"⟩ ⟨"u"⟩⟩

theorem pyStrip_data (s : String) : (pyStrip s).data = stripL s.data := rfl

theorem audio_fst (text : String) (style : MessageStyleEnum)
    (call : CallModel) (cfg : Config) :
    (_audio_from_text text style call cfg).1
      = pyStrip (ssmlTemplate call.lang.short_code call.lang.voice
          cfg.public_url style.value
          (if 400 < text.length then (⟨text.data.take 400⟩ : String) else text)) :=
  rfl

theorem audio_snd (text : String) (style : MessageStyleEnum)
    (call : CallModel) (cfg : Config) :
    (_audio_from_text text style call cfg).2 = decide (400 < text.length) :=
  rfl

theorem dropWhile_app_all (p : Char → Bool) :
    ∀ (a b : List Char), (∀ x ∈ a, p x = true) →
    (a ++ b).dropWhile p = b.dropWhile p := by
  intro a
  induction a with
  | nil => intro b _; rfl
  | cons c cs ih =>
    intro b h
    rw [List.cons_append, List.dropWhile_cons,
      if_pos (h c (List.mem_cons_self _ _))]
    exact ih b fun x hx => h x (List.mem_cons_of_mem _ hx)

/-- `str.strip()` of whitespace, then a block `a` that sheds no leading
whitespace, a middle, and a block `b` that sheds no trailing whitespace,
then whitespace again, is exactly `a ++ mid ++ b`. -/
theorem stripL_concat_gen (pre a mid b post : List Char)
    (hpre : ∀ x ∈ pre, isPySpace x = true)
    (hpost : ∀ x ∈ post, isPySpace x = true)
    (ha : List.dropWhile isPySpace a = a) (hane : a ≠ [])
    (hb : List.dropWhile isPySpace b.reverse = b.reverse) (hbne : b ≠ []) :
    stripL (pre ++ (a ++ mid ++ b) ++ post) = a ++ mid ++ b := by
  unfold stripL
  have haF : a.isEmpty = false := by simp [List.isEmpty_iff, hane]
  have hbF : b.reverse.isEmpty = false := by
    simp [List.isEmpty_iff, List.reverse_eq_nil_iff, hbne]
  have h1 : List.dropWhile isPySpace (pre ++ (a ++ mid ++ b) ++ post)
      = a ++ (mid ++ (b ++ post)) := by
    rw [List.append_assoc, dropWhile_app_all _ _ _ hpre, List.append_assoc,
      List.append_assoc, List.dropWhile_append, ha, haF]
    simp
  rw [h1]
  have h2 : (a ++ (mid ++ (b ++ post))).reverse
      = post.reverse ++ (b.reverse ++ (mid.reverse ++ a.reverse)) := by
    simp [List.reverse_append, List.append_assoc]
  rw [h2,
    dropWhile_app_all _ _ _ (fun x hx => hpost x (List.mem_reverse.mp hx)),
    List.dropWhile_append, hb, hbF]
  simp [List.reverse_append, List.append_assoc]

/-- Stripping the SSML template removes exactly the f-string's leading and
trailing whitespace, whatever the interpolated values are. -/
theorem ssmlTemplate_strip (sc v u st t : String) :
    pyStrip (ssmlTemplate sc v u st t)
      = ssmlHeadStripped ++ sc ++ ssmlMid1 ++ v ++ ssmlMid2 ++ u
        ++ ssmlMid3 ++ st ++ ssmlMid4 ++ t ++ ssmlTailStripped := by
  apply String.ext
  have e0 : ssmlHead.data = ("\n    ").data ++ ssmlHeadStripped.data := by decide
  have e5 : ssmlTail.data = ssmlTailStripped.data ++ ("\n    ").data := by decide
  have key := stripL_concat_gen (("\n    ").data) ssmlHeadStripped.data
    (sc.data ++ ssmlMid1.data ++ v.data ++ ssmlMid2.data ++ u.data
      ++ ssmlMid3.data ++ st.data ++ ssmlMid4.data ++ t.data)
    ssmlTailStripped.data (("\n    ").data)
    (by decide) (by decide) (by decide) (by decide) (by decide) (by decide)
  rw [pyStrip_data]
  simp only [ssmlTemplate, String.data_append, e0, e5, List.append_assoc] at key ⊢
  rw [key]

/-- The markup document built by `_audio_from_text`: the stripped template
with the call's language code, voice, the lexicon URL, the style at degree
0.5, the 0.95 prosody rate, and the (possibly truncated) text inserted
verbatim. -/
theorem audio_ssml_eq (text : String) (style : MessageStyleEnum)
    (call : CallModel) (cfg : Config) :
    (_audio_from_text text style call cfg).1
      = ssmlHeadStripped ++ call.lang.short_code ++ ssmlMid1 ++ call.lang.voice
        ++ ssmlMid2 ++ cfg.public_url ++ ssmlMid3 ++ style.value ++ ssmlMid4
        ++ (if 400 < text.length then (⟨text.data.take 400⟩ : String) else text)
        ++ ssmlTailStripped := by
  rw [audio_fst]
  exact ssmlTemplate_strip _ _ _ _ _

theorem isPre_self_append : ∀ (n b : List Char), isPre n (n ++ b) = true := by
  intro n
  induction n with
  | nil => intro b; rfl
  | cons c cs ih => intro b; simp [isPre, ih]

/-- A substring check succeeds on any string that contains the needle as a
contiguous middle part. -/
theorem hasSub_middle : ∀ (a n b : List Char), hasSub n (a ++ n ++ b) = true := by
  intro a
  induction a with
  | nil =>
    intro n b
    cases n with
    | nil => cases b <;> simp [hasSub, isPre]
    | cons c cs => simpa [hasSub] using Or.inl (isPre_self_append (c :: cs) b)
  | cons x xs ih =>
    intro n b
    have h := ih n b
    rw [List.append_assoc] at h
    simp [hasSub, h]

/-- Claim C5 (confirmed): when the text exceeds 400 characters,
`_audio_from_text` embeds only its first 400 characters (the produced
document is exactly the one built from the truncated text) and raises its
warning flag; when the text has at most 400 characters it is embedded in
full (it occurs verbatim inside the document) and no warning is raised. -/
theorem claim_C5 (text : String) (style : MessageStyleEnum)
    (call : CallModel) (cfg : Config) :
    (400 < text.length →
      (_audio_from_text text style call cfg).1
          = (_audio_from_text (⟨text.data.take 400⟩ : String) style call cfg).1 ∧
      (_audio_from_text text style call cfg).2 = true) ∧
    (text.length ≤ 400 →
      hasSub text.data ((_audio_from_text text style call cfg).1).data = true ∧
      (_audio_from_text text style call cfg).2 = false) := by
  constructor
  · intro h
    have hlen : (⟨text.data.take 400⟩ : String).length = 400 := by
      have hdl : text.data.length = text.length := rfl
      show (text.data.take 400).length = 400
      rw [List.length_take]
      omega
    refine ⟨?_, ?_⟩
    · rw [audio_ssml_eq, audio_ssml_eq, if_pos h,
        if_neg (by rw [hlen]; omega)]
    · rw [audio_snd]
      exact decide_eq_true h
  · intro h
    refine ⟨?_, ?_⟩
    · rw [audio_ssml_eq, if_neg (by omega)]
      simp only [String.data_append]
      exact hasSub_middle _ _ _
    · rw [audio_snd]
      exact decide_eq_false (by omega)

/-- Claim C5, witness: the 401-character text is embedded as its first 400
characters, with the warning flag raised. -/
theorem claim_C5_wit :
    400 < exA401.length ∧
    ((400 < exA401.length →
      (_audio_from_text exA401 MessageStyleEnum.NONE
          ⟨⟨"en-US", "v"⟩, "+1"⟩ ⟨"u"⟩).1
        = (_audio_from_text (⟨exA401.data.take 400⟩ : String)
            MessageStyleEnum.NONE ⟨⟨"en-US", "v"⟩, "+1"⟩ ⟨"u"⟩).1 ∧
      (_audio_from_text exA401 MessageStyleEnum.NONE
          ⟨⟨"en-US", "v"⟩, "+1"⟩ ⟨"u"⟩).2 = true) ∧
     (exA401.length ≤ 400 →
      hasSub exA401.data ((_audio_from_text exA401 MessageStyleEnum.NONE
          ⟨⟨"en-US", "v"⟩, "+1"⟩ ⟨"u"⟩).1).data = true ∧
      (_audio_from_text exA401 MessageStyleEnum.NONE
          ⟨⟨"en-US", "v"⟩, "+1"⟩ ⟨"u"⟩).2 = false)) :=
  ⟨by decide, claim_C5 exA401 MessageStyleEnum.NONE ⟨⟨"en-US", "v"⟩, "+1"⟩ ⟨"u"⟩⟩

/-- Claim C6 (confirmed): for every text, style, call and configuration, the
document built by `_audio_from_text` is exactly the trimmed SSML template
with the call's language code as document language (`xml:lang`), the call's
voice name, the lexicon reference `public_url ++ "/lexicon.xml"` (the
"/lexicon.xml" suffix opens `ssmlMid3`), the style value at fixed
`styledegree="0.5"` (in `ssmlMid4`), the prosody `rate="0.95"` (also in
`ssmlMid4`), and the possibly truncated text inserted verbatim between the
literal segments, with no escaping of XML-reserved characters. -/
theorem claim_C6 (text : String) (style : MessageStyleEnum)
    (call : CallModel) (cfg : Config) :
    (_audio_from_text text style call cfg).1
      = ssmlHeadStripped ++ call.lang.short_code ++ ssmlMid1 ++ call.lang.voice
        ++ ssmlMid2 ++ cfg.public_url ++ ssmlMid3 ++ style.value ++ ssmlMid4
        ++ (if 400 < text.length then (⟨text.data.take 400⟩ : String) else text)
        ++ ssmlTailStripped :=
  audio_ssml_eq text style call cfg
